import Mathlib

/-!
# Stock-Consistent Cart & Order Engine — shallow embedding

A shallow embedding of the cart/order tools of `src/server/dist/index.js`
(the TypeScript copy) over the schema of `src/db/init.sql`. Each SQL table
is a Lean list of rows; a `SELECT … LIMIT 1` is `List.find?`; an
`UPDATE … WHERE` is a `List.map` that rewrites the matching rows; a row
`INSERT` is an append, so list order is physical row order (insertion
order), which is what a `SELECT` without `ORDER BY` returns.

Every tool handler runs as one PostgreSQL transaction (`BEGIN` … `COMMIT`,
with `ROLLBACK` on any thrown error). An operation is therefore a function
`State → Except Err (α × State)`: the `.ok` branch is the committed state,
and an `.error` carries no state at all — the caller's state is untouched,
which is exactly the rollback. `runOp` below packages that session-level
reading. The server pins `customer_id = 1` in every cart/order statement,
and the embedding does the same.

Quantities, stock counts and prices are SQL `INTEGER`s, modelled as `Int`.
The schema's defensive `CHECK (stock >= 0)` (init.sql line 12) is
deliberately *not* modelled on `UPDATE`, so that the non-negativity of
stock is proved from the application logic alone rather than from the
database backstop.
-/

namespace Engine

/-- A row of `products` (init.sql lines 7–14): id, unit price in cents,
stock on hand. `name`, `description` and `category` play no part in the
cart/order logic and are omitted. -/
structure Product where
  id : Nat
  price_cents : Int
  stock : Int
  deriving Repr, DecidableEq

/-- `carts.status` (init.sql line 70): `active`, `checked_out`, `abandoned`. -/
inductive CartStatus where
  | active
  | checked_out
  | abandoned
  deriving Repr, DecidableEq

/-- A row of `carts` (init.sql lines 67–72), for the pinned customer 1. -/
structure Cart where
  id : Nat
  customer_id : Nat
  status : CartStatus
  deriving Repr, DecidableEq

/-- A row of `cart_items` (init.sql lines 77–83): quantity and the price
snapshot taken when the line was first inserted. -/
structure CartLine where
  cart_id : Nat
  product_id : Nat
  quantity : Int
  price_cents : Int
  deriving Repr, DecidableEq

/-- A row of `orders` (init.sql lines 51–55). -/
structure Order where
  id : Nat
  customer_id : Nat
  deriving Repr, DecidableEq

/-- A row of `order_items` (init.sql lines 58–64). -/
structure OrderLine where
  order_id : Nat
  product_id : Nat
  quantity : Int
  price_cents : Int
  deriving Repr, DecidableEq

/-- The database state seen by the engine: one list per table (list order =
physical row order) plus the next value of each `SERIAL` id sequence. -/
structure State where
  products : List Product
  carts : List Cart
  cart_items : List CartLine
  orders : List Order
  order_items : List OrderLine
  nextCartId : Nat
  nextOrderId : Nat
  deriving Repr, DecidableEq

/-- The errors the handlers throw, one per distinct `throw new Error(…)`
message, plus the uncaught unique-index violation a conflicting cart
`INSERT` raises (`ux_carts_active_per_customer`, init.sql line 75). -/
inductive Err where
  | productNotFound
  | outOfStock
  | notEnoughStock
  | noActiveCart
  | cartIsEmpty
  | uniqueViolation
  deriving Repr, DecidableEq

/-- `SELECT id FROM carts WHERE customer_id=1 AND status='active' LIMIT 1`. -/
def findActiveCart (s : State) : Option Cart :=
  s.carts.find? fun c => c.customer_id == 1 && c.status == .active

/-- `SELECT … FROM products WHERE id=$1` (with or without `FOR UPDATE`;
locking has no sequential content). -/
def findProduct (s : State) (productId : Nat) : Option Product :=
  s.products.find? fun p => p.id == productId

/-- `SELECT quantity FROM cart_items WHERE cart_id=$1 AND product_id=$2`. -/
def findCartLine (s : State) (cartId productId : Nat) : Option CartLine :=
  s.cart_items.find? fun l => l.cart_id == cartId && l.product_id == productId

/-- The stock value checkout's lock loop reads:
`Number(p.rows[0]?.stock ?? 0)` — the row's stock, or 0 when the product
row is missing (index.js line 508). -/
def stockOf (s : State) (productId : Nat) : Int :=
  match findProduct s productId with
  | some p => p.stock
  | none => 0

/-- `UPDATE products SET stock = stock - $1 WHERE id=$2`
(index.js lines 396 and 515). No `CHECK` is modelled; see the header. -/
def decrementStock (s : State) (productId : Nat) (qty : Int) : State :=
  { s with
    products := s.products.map fun p =>
      if p.id == productId then { p with stock := p.stock - qty } else p }

/-- `UPDATE products SET price_cents=$1 WHERE id=$2`: an external catalog
price change, used only to state that cart-line price snapshots are immune
to it. Not an engine operation. -/
def setPrice (s : State) (productId : Nat) (price : Int) : State :=
  { s with
    products := s.products.map fun p =>
      if p.id == productId then { p with price_cents := price } else p }

/-- The committed state of an operation run against `s`: the new state on
`COMMIT`, and `s` itself on a thrown error, since the handler's `catch`
issues `ROLLBACK` (every handler in index.js has this shape). -/
def runOp {α : Type} (r : Except Err (α × State)) (s : State) : State :=
  match r with
  | .ok (_, s') => s'
  | .error _ => s

/-! ## cart.ensure (index.js lines 407–425)

The handler runs two auto-committed statements with *no* transaction and
*no* conflict handling: `SELECT` the active cart, and if none, `INSERT` a
new one. A concurrent transaction may commit between the two statements;
`mid` is that interleaved effect (`id` for an uncontended run). The
`INSERT` is subject to the filtered unique index
`ux_carts_active_per_customer` (init.sql line 75): when an active cart for
customer 1 already exists at insert time, PostgreSQL raises a
unique-violation error, and since the handler has no `try`/`catch` around
the insert, the error propagates to the caller. -/

/-- `cart.ensure` with an explicit interleaving point between its `SELECT`
and its `INSERT`. -/
def cartEnsureWith (s : State) (mid : State → State) : Except Err (Nat × State) :=
  match findActiveCart s with
  | some c => .ok (c.id, s)
  | none =>
    let s' := mid s
    if (findActiveCart s').isSome then
      .error .uniqueViolation
    else
      .ok (s'.nextCartId,
        { s' with
          carts := s'.carts ++ [⟨s'.nextCartId, 1, .active⟩],
          nextCartId := s'.nextCartId + 1 })

/-- `cart.ensure` run without interference. -/
def cartEnsure (s : State) : Except Err (Nat × State) :=
  cartEnsureWith s id

/-! ## create.order — directPurchase (index.js lines 375–404) -/

/-- `create.order`: lock the product row, check `stock < qty`, insert a
one-line order for customer 1 at the product's current price, decrement
stock. All inside one transaction. -/
def createOrder (s : State) (productId : Nat) (quantity : Int) : Except Err (Nat × State) :=
  match findProduct s productId with
  | none => .error .productNotFound
  | some prod =>
    if prod.stock < quantity then
      .error .outOfStock
    else
      let orderId := s.nextOrderId
      let s1 : State := { s with
        orders := s.orders ++ [⟨orderId, 1⟩],
        nextOrderId := orderId + 1 }
      let s2 : State := { s1 with
        order_items := s1.order_items ++ [⟨orderId, productId, quantity, prod.price_cents⟩] }
      .ok (orderId, decrementStock s2 productId quantity)

/-! ## cart.add_item (index.js lines 428–461) -/

/-- Lines 439–440 of `cart.add_item`: select the active cart's id, and when
none exists, insert a fresh active cart inside the enclosing transaction.
(Same select-or-insert as `cart.ensure`, but without the interleaving
window since both statements run in one transaction here.) -/
def selectOrCreateCart (s : State) : Nat × State :=
  match findActiveCart s with
  | some c => (c.id, s)
  | none =>
    (s.nextCartId,
      { s with
        carts := s.carts ++ [⟨s.nextCartId, 1, .active⟩],
        nextCartId := s.nextCartId + 1 })

/-- `cart.add_item`: inside one transaction, select the active cart (or
insert one), read the product's price and stock (no `FOR UPDATE` here),
read the existing line quantity (0 if absent), reject when
`existingQty + qty > stock`, else upsert the line —
`INSERT … ON CONFLICT (cart_id, product_id) DO UPDATE SET quantity =
cart_items.quantity + EXCLUDED.quantity`, which inserts a fresh line with
the current price on first add and only adds to `quantity` on merge,
leaving the stored `price_cents` untouched. -/
def cartAddItem (s : State) (productId : Nat) (quantity : Int) : Except Err (Nat × State) :=
  let cartId := (selectOrCreateCart s).1
  let s1 := (selectOrCreateCart s).2
  match findProduct s1 productId with
  | none => .error .productNotFound
  | some prod =>
    let existingQty :=
      match findCartLine s1 cartId productId with
      | some l => l.quantity
      | none => 0
    if existingQty + quantity > prod.stock then
      .error .notEnoughStock
    else
      let s2 :=
        match findCartLine s1 cartId productId with
        | some _ =>
          { s1 with
            cart_items := s1.cart_items.map fun l =>
              if l.cart_id == cartId && l.product_id == productId then
                { l with quantity := l.quantity + quantity }
              else l }
        | none =>
          { s1 with
            cart_items := s1.cart_items ++ [⟨cartId, productId, quantity, prod.price_cents⟩] }
      .ok (cartId, s2)

/-! ## cart.view (index.js lines 464–486) -/

/-- One row of the view query: the line joined with its product, with
`line_total = quantity * price_cents` computed in SQL. -/
structure ViewItem where
  product_id : Nat
  quantity : Int
  price_cents : Int
  line_total : Int
  deriving Repr, DecidableEq

/-- The view payload: `{ cart: null, items: [], total_cents: 0 }` when no
active cart exists, else the cart id, its joined lines and their total. -/
structure ViewResult where
  cartId : Option Nat
  items : List ViewItem
  total_cents : Int
  deriving Repr, DecidableEq

/-- `cart.view`: plain reads, no transaction, no throw path. The items
query inner-joins `cart_items` with `products`, so a line whose product row
is gone drops out; the `ORDER BY p.name` only permutes the returned rows
and is not modelled (the payload's membership and total are
order-independent). `total_cents` is the JS
`items.rows.reduce((s, r) => s + Number(r.line_total), 0)`. -/
def cartView (s : State) : ViewResult :=
  match findActiveCart s with
  | none => ⟨none, [], 0⟩
  | some c =>
    let items := (s.cart_items.filter fun l => l.cart_id == c.id).filterMap fun l =>
      match findProduct s l.product_id with
      | some _ => some (⟨l.product_id, l.quantity, l.price_cents,
          l.quantity * l.price_cents⟩ : ViewItem)
      | none => none
    ⟨some c.id, items, items.foldl (fun acc r => acc + r.line_total) 0⟩

/-! ## cart.checkout (index.js lines 489–525) -/

/-- Checkout's lock-and-validate loop, line by line in the order the rows
came back: `SELECT … FOR UPDATE` the product, read `stock ?? 0`, and throw
`Out of stock` when `stock < quantity` (index.js lines 506–510). -/
def checkStock (s : State) : List CartLine → Except Err Unit
  | [] => .ok ()
  | it :: rest =>
    if stockOf s it.product_id < it.quantity then
      .error .outOfStock
    else
      checkStock s rest

/-- Checkout's commit loop over the same rows in the same order: insert one
order line carrying the cart line's snapshot `price_cents`, then decrement
that product's stock by the line quantity (index.js lines 513–516). -/
def commitItems (s : State) (orderId : Nat) : List CartLine → State
  | [] => s
  | it :: rest =>
    commitItems
      (decrementStock
        { s with order_items :=
            s.order_items ++ [⟨orderId, it.product_id, it.quantity, it.price_cents⟩] }
        it.product_id it.quantity)
      orderId rest

/-- `UPDATE carts SET status='checked_out' WHERE id=$1` (index.js line 517). -/
def markCheckedOut (s : State) (cartId : Nat) : State :=
  { s with
    carts := s.carts.map fun c =>
      if c.id == cartId then { c with status := .checked_out } else c }

/-- The rows of `SELECT product_id, quantity, price_cents FROM cart_items
WHERE cart_id=$1` (index.js line 503). The query has **no ORDER BY**, so the
rows come back in physical (insertion) order — the list order of the
embedding. -/
def cartLines (s : State) (cartId : Nat) : List CartLine :=
  s.cart_items.filter fun l => l.cart_id == cartId

/-- `cart.checkout`: one transaction; `No active cart` when customer 1 has
no active cart; `Cart is empty` when it has no lines; lock and validate
every line in row order; insert the order; copy each line into an order
line at its snapshot price and decrement its product's stock; mark the cart
`checked_out`. Any throw rolls the whole transaction back. -/
def cartCheckout (s : State) : Except Err (Nat × State) :=
  match findActiveCart s with
  | none => .error .noActiveCart
  | some cart =>
    let items := cartLines s cart.id
    if items.isEmpty then
      .error .cartIsEmpty
    else
      match checkStock s items with
      | .error e => .error e
      | .ok () =>
        let orderId := s.nextOrderId
        let s1 : State := { s with
          orders := s.orders ++ [⟨orderId, 1⟩],
          nextOrderId := orderId + 1 }
        .ok (orderId, markCheckedOut (commitItems s1 orderId items) cart.id)

/-- The sequence of product ids checkout's lock-and-validate loop visits:
the `product_id` of each row of `cartLines`, in row order. Empty when there
is no active cart. -/
def checkoutLockOrder (s : State) : List Nat :=
  match findActiveCart s with
  | none => []
  | some cart => (cartLines s cart.id).map (·.product_id)

/-! ## cart.remove_item (index.js lines 528–550) -/

/-- `cart.remove_item`: when no active cart exists, commit and report
`removed: false` without touching anything; else
`DELETE FROM cart_items WHERE cart_id=$1 AND product_id=$2` and report
whether the delete's row count was positive. -/
def cartRemoveItem (s : State) (productId : Nat) : Bool × State :=
  match findActiveCart s with
  | none => (false, s)
  | some c =>
    let rowCount :=
      s.cart_items.countP fun l => l.cart_id == c.id && l.product_id == productId
    (decide (0 < rowCount),
      { s with
        cart_items := s.cart_items.filter fun l =>
          ¬(l.cart_id == c.id && l.product_id == productId) })

/-! ## Database well-formedness

The schema constraints a PostgreSQL state always satisfies, which the
embedding carries as a predicate: product ids are unique
(`products.id SERIAL PRIMARY KEY`, init.sql line 8), cart lines are unique
per `(cart_id, product_id)` (`PRIMARY KEY (cart_id, product_id)`,
init.sql line 82), every line references an existing cart
(`REFERENCES carts(id)`, init.sql line 78), and every cart id is below the
`SERIAL` sequence's next value. -/

/-- The DB-enforced invariants of a state. -/
def WF (s : State) : Prop :=
  s.products.Pairwise (fun a b => a.id ≠ b.id)
  ∧ s.cart_items.Pairwise (fun a b => a.cart_id ≠ b.cart_id ∨ a.product_id ≠ b.product_id)
  ∧ (∀ l ∈ s.cart_items, ∃ c ∈ s.carts, c.id = l.cart_id)
  ∧ (∀ c ∈ s.carts, c.id < s.nextCartId)

instance (s : State) : Decidable (WF s) := by
  unfold WF; infer_instance

/-- Every product row's stock is non-negative. -/
def stocksNonneg (s : State) : Prop :=
  ∀ p ∈ s.products, 0 ≤ p.stock

instance (s : State) : Decidable (stocksNonneg s) := by
  unfold stocksNonneg; infer_instance

/-! ## Call sequences

The operations the stock-floor property quantifies over, each run with its
transaction semantics: the committed state on success, the unchanged state
on a rolled-back error. -/

/-- One engine call: `cart.add_item`, `cart.checkout`, or `create.order`
(directPurchase). -/
inductive Op where
  | addItem (productId : Nat) (quantity : Int)
  | checkout
  | directPurchase (productId : Nat) (quantity : Int)
  deriving Repr, DecidableEq

/-- Run one call against a state: the committed state, with rollback on
error (`runOp`). -/
def Op.apply (op : Op) (s : State) : State :=
  match op with
  | .addItem pid q => runOp (cartAddItem s pid q) s
  | .checkout => runOp (cartCheckout s) s
  | .directPurchase pid q => runOp (createOrder s pid q) s

/-- Run a sequence of calls left to right. -/
def applyOps (s : State) : List Op → State
  | [] => s
  | op :: rest => applyOps (op.apply s) rest

/-- The quantity the add-item guard compares against stock, as the spec
words it: the existing line quantity for the product in the customer's
active cart, 0 when the line — or the cart itself — is absent. -/
def activeLineQty (s : State) (productId : Nat) : Int :=
  match findActiveCart s with
  | some c =>
    match findCartLine s c.id productId with
    | some l => l.quantity
    | none => 0
  | none => 0

/-! ## Concrete demo states

Small states used to instantiate the theorems on closed inputs. -/

/-- A seed catalog of two products and no carts or orders. -/
def demoState : State :=
  { products := [⟨1, 100, 5⟩, ⟨2, 500, 1⟩],
    carts := [], cart_items := [], orders := [], order_items := [],
    nextCartId := 10, nextOrderId := 20 }

/-- `demoState` after `cart.add_item 2 1`: a fresh active cart 10 with one
line on product 2. -/
def demoMidState : State :=
  { products := [⟨1, 100, 5⟩, ⟨2, 500, 1⟩],
    carts := [⟨10, 1, .active⟩],
    cart_items := [⟨10, 2, 1, 500⟩],
    orders := [], order_items := [],
    nextCartId := 11, nextOrderId := 20 }

/-- `demoMidState` after `cart.add_item 1 1`: lines on products 2 then 1,
in that stored order. -/
def demoTwoLineState : State :=
  { products := [⟨1, 100, 5⟩, ⟨2, 500, 1⟩],
    carts := [⟨10, 1, .active⟩],
    cart_items := [⟨10, 2, 1, 500⟩, ⟨10, 1, 1, 100⟩],
    orders := [], order_items := [],
    nextCartId := 11, nextOrderId := 20 }

/-- An active cart whose line on product 1 wants 2 units against stock 1. -/
def demoOverState : State :=
  { products := [⟨1, 100, 1⟩, ⟨2, 500, 3⟩],
    carts := [⟨10, 1, .active⟩],
    cart_items := [⟨10, 2, 1, 500⟩, ⟨10, 1, 2, 100⟩],
    orders := [], order_items := [],
    nextCartId := 11, nextOrderId := 20 }

/-- An active cart with two lines, both within stock. -/
def demoCartState : State :=
  { products := [⟨1, 100, 5⟩, ⟨2, 500, 3⟩],
    carts := [⟨10, 1, .active⟩],
    cart_items := [⟨10, 2, 1, 500⟩, ⟨10, 1, 2, 100⟩],
    orders := [], order_items := [],
    nextCartId := 11, nextOrderId := 20 }

/-- An empty active cart over a single well-stocked product. -/
def demoEmptyCartState : State :=
  { products := [⟨1, 100, 9⟩],
    carts := [⟨10, 1, .active⟩],
    cart_items := [], orders := [], order_items := [],
    nextCartId := 11, nextOrderId := 20 }

/-- A concurrent effect for `cart.ensure`'s interleaving window: another
session commits an active cart for customer 1. -/
def rivalCartInsert : State → State := fun s =>
  { s with carts := s.carts ++ [⟨7, 1, .active⟩] }

/-! ## List plumbing -/

theorem find?_map_of_pred_eq {α : Type} (f : α → α) (p : α → Bool)
    (hf : ∀ a, p (f a) = p a) (l : List α) :
    (l.map f).find? p = (l.find? p).map f := by
  induction l with
  | nil => rfl
  | cons a l ih =>
    by_cases h : p a = true
    · rw [List.map_cons, List.find?_cons_of_pos _ ((hf a).trans h),
        List.find?_cons_of_pos _ h, Option.map_some']
    · rw [List.map_cons, List.find?_cons_of_neg _ (by rw [hf a]; exact h),
        List.find?_cons_of_neg _ h, ih]

theorem find?_append_of_none {α : Type} (p : α → Bool) (l₁ l₂ : List α)
    (h : l₁.find? p = none) : (l₁ ++ l₂).find? p = l₂.find? p := by
  induction l₁ with
  | nil => rfl
  | cons a l ih =>
    rw [List.find?_eq_none] at h
    rw [List.cons_append, List.find?_cons_of_neg _ (h a (List.mem_cons_self a l)), ih]
    rw [List.find?_eq_none]
    exact fun x hx => h x (List.mem_cons_of_mem a hx)

theorem foldl_add_eq_sum {α : Type} (g : α → Int) (l : List α) (init : Int) :
    l.foldl (fun acc r => acc + g r) init = init + (l.map g).sum := by
  induction l generalizing init with
  | nil => simp
  | cons a l ih => simp [ih, add_assoc]

/-! ## Frame lemmas for the row updates -/

theorem id_decrement_update (pid : Nat) (q : Int) (p : Product) :
    (if p.id == pid then { p with stock := p.stock - q } else p).id = p.id := by
  split <;> rfl

theorem id_price_update (pid : Nat) (v : Int) (p : Product) :
    (if p.id == pid then { p with price_cents := v } else p).id = p.id := by
  split <;> rfl

theorem findProduct_decrementStock (s : State) (pid : Nat) (q : Int) (pid' : Nat) :
    findProduct (decrementStock s pid q) pid'
      = (findProduct s pid').map
          (fun p => if p.id == pid then { p with stock := p.stock - q } else p) := by
  unfold findProduct decrementStock
  exact find?_map_of_pred_eq _ _ (fun p => by rw [id_decrement_update]) _

theorem findProduct_setPrice (s : State) (pid : Nat) (v : Int) (pid' : Nat) :
    findProduct (setPrice s pid v) pid'
      = (findProduct s pid').map
          (fun p => if p.id == pid then { p with price_cents := v } else p) := by
  unfold findProduct setPrice
  exact find?_map_of_pred_eq _ _ (fun p => by rw [id_price_update]) _

theorem id_eq_of_findProduct {s : State} {pid : Nat} {p : Product}
    (h : findProduct s pid = some p) : p.id = pid := by
  have := List.find?_some h
  simpa using this

theorem findProduct_decrementStock_ne (s : State) (pid : Nat) (q : Int) (pid' : Nat)
    (h : pid' ≠ pid) :
    findProduct (decrementStock s pid q) pid' = findProduct s pid' := by
  rw [findProduct_decrementStock]
  cases hf : findProduct s pid' with
  | none => rfl
  | some p =>
    have hp : p.id = pid' := id_eq_of_findProduct hf
    simp [hp, h]

theorem stockOf_decrementStock_ne (s : State) (pid : Nat) (q : Int) (pid' : Nat)
    (h : pid' ≠ pid) :
    stockOf (decrementStock s pid q) pid' = stockOf s pid' := by
  unfold stockOf
  rw [findProduct_decrementStock_ne s pid q pid' h]

theorem stockOf_decrementStock_self (s : State) (pid : Nat) (q : Int) (p : Product)
    (hp : findProduct s pid = some p) :
    stockOf (decrementStock s pid q) pid = p.stock - q := by
  unfold stockOf
  rw [findProduct_decrementStock, hp]
  have hid : p.id = pid := id_eq_of_findProduct hp
  simp [hid]

theorem stockOf_decrementStock_none (s : State) (pid : Nat) (q : Int)
    (hp : findProduct s pid = none) :
    stockOf (decrementStock s pid q) pid = 0 := by
  unfold stockOf
  rw [findProduct_decrementStock, hp]
  rfl

theorem stockOf_setPrice (s : State) (pid : Nat) (v : Int) (pid' : Nat) :
    stockOf (setPrice s pid v) pid' = stockOf s pid' := by
  unfold stockOf
  rw [findProduct_setPrice]
  cases hf : findProduct s pid' with
  | none => rfl
  | some p =>
    dsimp only [Option.map_some']
    split <;> rfl

theorem find?_id_self (l : List Product)
    (hnodup : l.Pairwise fun a b => a.id ≠ b.id)
    (p : Product) (hp : p ∈ l) : l.find? (fun q => q.id == p.id) = some p := by
  induction l with
  | nil => cases hp
  | cons a l ih =>
    rcases List.mem_cons.mp hp with rfl | hmem
    · exact List.find?_cons_of_pos _ (by simp)
    · have hne : a.id ≠ p.id := (List.pairwise_cons.mp hnodup).1 p hmem
      rw [List.find?_cons_of_neg _ (by simpa using hne)]
      exact ih (List.pairwise_cons.mp hnodup).2 hmem

theorem findProduct_self (s : State)
    (hnodup : s.products.Pairwise fun a b => a.id ≠ b.id)
    (p : Product) (hp : p ∈ s.products) : findProduct s p.id = some p :=
  find?_id_self s.products hnodup p hp

theorem stockOf_nonneg (s : State) (h : stocksNonneg s) (pid : Nat) :
    0 ≤ stockOf s pid := by
  unfold stockOf
  cases hf : findProduct s pid with
  | none => exact le_refl 0
  | some p => exact h p (List.mem_of_find?_eq_some hf)

theorem stocksNonneg_of_stockOf (s : State)
    (hnodup : s.products.Pairwise fun a b => a.id ≠ b.id)
    (h : ∀ pid, 0 ≤ stockOf s pid) : stocksNonneg s := by
  intro p hp
  have := h p.id
  rwa [stockOf, findProduct_self s hnodup p hp] at this

theorem products_pairwise_decrementStock (s : State) (pid : Nat) (q : Int)
    (h : s.products.Pairwise fun a b => a.id ≠ b.id) :
    (decrementStock s pid q).products.Pairwise fun a b => a.id ≠ b.id := by
  unfold decrementStock
  rw [List.pairwise_map]
  exact h.imp fun hab => by rwa [id_decrement_update, id_decrement_update]

/-! ## The checkout loops -/

theorem checkStock_ok (s : State) (items : List CartLine)
    (h : ∀ it ∈ items, it.quantity ≤ stockOf s it.product_id) :
    checkStock s items = .ok () := by
  induction items with
  | nil => rfl
  | cons it rest ih =>
    unfold checkStock
    rw [if_neg (by
      have := h it (List.mem_cons_self it rest)
      omega)]
    exact ih fun x hx => h x (List.mem_cons_of_mem it hx)

theorem checkStock_err (s : State) (items : List CartLine) (it : CartLine)
    (hmem : it ∈ items) (h : stockOf s it.product_id < it.quantity) :
    checkStock s items = .error .outOfStock := by
  induction items with
  | nil => cases hmem
  | cons hd rest ih =>
    unfold checkStock
    by_cases hhd : stockOf s hd.product_id < hd.quantity
    · rw [if_pos hhd]
    · rw [if_neg hhd]
      rcases List.mem_cons.mp hmem with rfl | hmem'
      · exact absurd h hhd
      · exact ih hmem'

theorem commitItems_carts (s : State) (oid : Nat) (items : List CartLine) :
    (commitItems s oid items).carts = s.carts := by
  induction items generalizing s with
  | nil => rfl
  | cons it rest ih => rw [commitItems, ih]; rfl

theorem commitItems_cart_items (s : State) (oid : Nat) (items : List CartLine) :
    (commitItems s oid items).cart_items = s.cart_items := by
  induction items generalizing s with
  | nil => rfl
  | cons it rest ih => rw [commitItems, ih]; rfl

theorem commitItems_orders (s : State) (oid : Nat) (items : List CartLine) :
    (commitItems s oid items).orders = s.orders := by
  induction items generalizing s with
  | nil => rfl
  | cons it rest ih => rw [commitItems, ih]; rfl

theorem commitItems_nextCartId (s : State) (oid : Nat) (items : List CartLine) :
    (commitItems s oid items).nextCartId = s.nextCartId := by
  induction items generalizing s with
  | nil => rfl
  | cons it rest ih => rw [commitItems, ih]; rfl

theorem commitItems_nextOrderId (s : State) (oid : Nat) (items : List CartLine) :
    (commitItems s oid items).nextOrderId = s.nextOrderId := by
  induction items generalizing s with
  | nil => rfl
  | cons it rest ih => rw [commitItems, ih]; rfl

theorem commitItems_order_items (s : State) (oid : Nat) (items : List CartLine) :
    (commitItems s oid items).order_items
      = s.order_items ++ items.map fun it =>
          (⟨oid, it.product_id, it.quantity, it.price_cents⟩ : OrderLine) := by
  induction items generalizing s with
  | nil => simp [commitItems]
  | cons it rest ih =>
    rw [commitItems, ih]
    simp [decrementStock]

theorem products_pairwise_commitItems (s : State) (oid : Nat) (items : List CartLine)
    (h : s.products.Pairwise fun a b => a.id ≠ b.id) :
    (commitItems s oid items).products.Pairwise fun a b => a.id ≠ b.id := by
  induction items generalizing s with
  | nil => exact h
  | cons it rest ih =>
    rw [commitItems]
    exact ih _ (products_pairwise_decrementStock _ _ _ h)

theorem stockOf_commitItems_notMem (s : State) (oid : Nat) (items : List CartLine)
    (pid : Nat) (h : ∀ it ∈ items, it.product_id ≠ pid) :
    stockOf (commitItems s oid items) pid = stockOf s pid := by
  induction items generalizing s with
  | nil => rfl
  | cons it rest ih =>
    rw [commitItems, ih _ fun x hx => h x (List.mem_cons_of_mem it hx)]
    exact stockOf_decrementStock_ne _ _ _ _
      fun he => h it (List.mem_cons_self it rest) he.symm

theorem stockOf_commitItems_mem (s : State) (oid : Nat) (items : List CartLine)
    (hdist : items.Pairwise fun a b => a.product_id ≠ b.product_id)
    (it : CartLine) (hmem : it ∈ items) (p : Product)
    (hp : findProduct s it.product_id = some p) :
    stockOf (commitItems s oid items) it.product_id = p.stock - it.quantity := by
  induction items generalizing s with
  | nil => cases hmem
  | cons hd rest ih =>
    rw [commitItems]
    rcases List.mem_cons.mp hmem with rfl | hmem'
    · rw [stockOf_commitItems_notMem _ _ _ _
        fun x hx he => (List.pairwise_cons.mp hdist).1 x hx he.symm]
      exact stockOf_decrementStock_self _ _ _ p hp
    · have hne : it.product_id ≠ hd.product_id :=
        fun he => (List.pairwise_cons.mp hdist).1 it hmem' he.symm
      exact ih _ (List.pairwise_cons.mp hdist).2 hmem'
        (by rw [findProduct_decrementStock_ne _ _ _ _ hne]; exact hp)

theorem stockOf_decrementStock_self_nonneg (s : State) (pid : Nat) (q : Int)
    (h : q ≤ stockOf s pid) : 0 ≤ stockOf (decrementStock s pid q) pid := by
  cases hf : findProduct s pid with
  | none =>
    rw [stockOf_decrementStock_none _ _ _ hf]
  | some p =>
    rw [stockOf_decrementStock_self _ _ _ p hf]
    have h' : q ≤ p.stock := by simpa [stockOf, hf] using h
    omega

theorem stockOf_commitItems_nonneg (s : State) (oid : Nat) (items : List CartLine)
    (hdist : items.Pairwise fun a b => a.product_id ≠ b.product_id)
    (hsuff : ∀ it ∈ items, it.quantity ≤ stockOf s it.product_id)
    (h0 : ∀ pid, 0 ≤ stockOf s pid) :
    ∀ pid, 0 ≤ stockOf (commitItems s oid items) pid := by
  induction items generalizing s with
  | nil => exact h0
  | cons hd rest ih =>
    rw [commitItems]
    have hdc := List.pairwise_cons.mp hdist
    refine ih _ hdc.2 ?_ ?_
    · intro it hit
      rw [stockOf_decrementStock_ne _ _ _ _ fun he => hdc.1 it hit he.symm]
      exact hsuff it (List.mem_cons_of_mem hd hit)
    · intro pid
      by_cases hpe : pid = hd.product_id
      · subst hpe
        exact stockOf_decrementStock_self_nonneg _ _ _
          (hsuff hd (List.mem_cons_self hd rest))
      · rw [stockOf_decrementStock_ne _ _ _ _ hpe]
        exact h0 pid

/-! ## markCheckedOut and the cart select -/

theorem markCheckedOut_products (s : State) (cid : Nat) :
    (markCheckedOut s cid).products = s.products := rfl

theorem markCheckedOut_cart_items (s : State) (cid : Nat) :
    (markCheckedOut s cid).cart_items = s.cart_items := rfl

theorem stockOf_markCheckedOut (s : State) (cid : Nat) (pid : Nat) :
    stockOf (markCheckedOut s cid) pid = stockOf s pid := rfl

theorem selectOrCreateCart_active (s : State) (c : Cart)
    (hc : findActiveCart s = some c) : selectOrCreateCart s = (c.id, s) := by
  unfold selectOrCreateCart
  rw [hc]

theorem selectOrCreateCart_fresh (s : State) (hc : findActiveCart s = none) :
    selectOrCreateCart s =
      (s.nextCartId,
        { s with
          carts := s.carts ++ [⟨s.nextCartId, 1, .active⟩],
          nextCartId := s.nextCartId + 1 }) := by
  unfold selectOrCreateCart
  rw [hc]

theorem findActiveCart_selectOrCreateCart_fresh (s : State)
    (hc : findActiveCart s = none) :
    findActiveCart (selectOrCreateCart s).2 = some ⟨s.nextCartId, 1, .active⟩ := by
  rw [selectOrCreateCart_fresh s hc]
  show (s.carts ++ [(⟨s.nextCartId, 1, CartStatus.active⟩ : Cart)]).find?
      (fun c => c.customer_id == 1 && c.status == CartStatus.active)
    = some ⟨s.nextCartId, 1, CartStatus.active⟩
  rw [find?_append_of_none _ _ _ hc]
  rfl

theorem cartLines_pairwise (s : State) (cid : Nat)
    (h : s.cart_items.Pairwise fun a b => a.cart_id ≠ b.cart_id ∨ a.product_id ≠ b.product_id) :
    (cartLines s cid).Pairwise fun a b => a.product_id ≠ b.product_id := by
  unfold cartLines
  refine (h.filter _).imp_of_mem ?_
  intro a b ha hb hr
  have ha' : a.cart_id = cid := by simpa using (List.mem_filter.mp ha).2
  have hb' : b.cart_id = cid := by simpa using (List.mem_filter.mp hb).2
  rcases hr with h1 | h2
  · exact absurd (ha'.trans hb'.symm) h1
  · exact h2

/-- The checkout success path, fully computed: with an active cart, a
non-empty line set and every line within stock, `cart.checkout` commits the
order-insert, the per-line copies and decrements, and the status flip. -/
theorem cartCheckout_success (s : State) (c : Cart)
    (hc : findActiveCart s = some c)
    (hne : cartLines s c.id ≠ [])
    (hch : checkStock s (cartLines s c.id) = .ok ()) :
    cartCheckout s = .ok (s.nextOrderId,
      markCheckedOut
        (commitItems
          { s with
            orders := s.orders ++ [⟨s.nextOrderId, 1⟩],
            nextOrderId := s.nextOrderId + 1 }
          s.nextOrderId (cartLines s c.id))
        c.id) := by
  unfold cartCheckout
  rw [hc]
  simp only [List.isEmpty_eq_false.mpr hne, Bool.false_eq_true, if_false, hch]

/-- The checkout failure paths: no active cart, empty cart, or a line over
stock each produce their error, and the transaction is rolled back. -/
theorem cartCheckout_noActiveCart (s : State) (hc : findActiveCart s = none) :
    cartCheckout s = .error .noActiveCart := by
  unfold cartCheckout
  rw [hc]

theorem cartCheckout_emptyCart (s : State) (c : Cart)
    (hc : findActiveCart s = some c) (he : cartLines s c.id = []) :
    cartCheckout s = .error .cartIsEmpty := by
  unfold cartCheckout
  rw [hc]
  simp only [he]
  rfl

theorem cartCheckout_outOfStock (s : State) (c : Cart)
    (hc : findActiveCart s = some c)
    (it : CartLine) (hmem : it ∈ cartLines s c.id)
    (hlt : stockOf s it.product_id < it.quantity) :
    cartCheckout s = .error .outOfStock := by
  unfold cartCheckout
  rw [hc]
  have hne : cartLines s c.id ≠ [] := by
    intro h
    rw [h] at hmem
    cases hmem
  simp only [List.isEmpty_eq_false.mpr hne, Bool.false_eq_true, if_false,
    checkStock_err s _ it hmem hlt]

/-! ## cart.add_item, fully unfolded -/

theorem findProduct_selectOrCreate (s : State) (pid : Nat) :
    findProduct (selectOrCreateCart s).2 pid = findProduct s pid := by
  unfold selectOrCreateCart
  cases findActiveCart s <;> rfl

theorem findCartLine_selectOrCreate (s : State) (cid pid : Nat) :
    findCartLine (selectOrCreateCart s).2 cid pid = findCartLine s cid pid := by
  unfold selectOrCreateCart
  cases findActiveCart s <;> rfl

/-- `cart.add_item` reduced past the cart select and the product read: the
guard-and-upsert on the line. -/
theorem cartAddItem_eq (s : State) (pid : Nat) (q : Int) (cid : Nat) (s1 : State)
    (hsel : selectOrCreateCart s = (cid, s1)) (prod : Product)
    (hp : findProduct s1 pid = some prod) :
    cartAddItem s pid q =
      match findCartLine s1 cid pid with
      | some l =>
        if l.quantity + q > prod.stock then .error .notEnoughStock
        else .ok (cid,
          { s1 with cart_items := s1.cart_items.map fun l' =>
              if l'.cart_id == cid && l'.product_id == pid then
                { l' with quantity := l'.quantity + q }
              else l' })
      | none =>
        if 0 + q > prod.stock then .error .notEnoughStock
        else .ok (cid,
          { s1 with cart_items := s1.cart_items ++ [⟨cid, pid, q, prod.price_cents⟩] }) := by
  unfold cartAddItem
  rw [hsel]
  dsimp only
  rw [show findProduct s1 pid = some prod from hp]
  cases hfl : findCartLine s1 cid pid <;> rfl

/-- A fresh cart id has no lines: every line references a cart whose id is
below the sequence's next value. -/
theorem findCartLine_fresh (s : State) (hwf : WF s) (pid : Nat) :
    findCartLine s s.nextCartId pid = none := by
  unfold findCartLine
  rw [List.find?_eq_none]
  intro l hl
  obtain ⟨c, hc, hcid⟩ := hwf.2.2.1 l hl
  have hlt := hwf.2.2.2 c hc
  simp only [Bool.and_eq_true, beq_iff_eq, not_and]
  intro he
  omega

theorem upd_cart_id (cid pid : Nat) (q : Int) (l : CartLine) :
    ((if l.cart_id == cid && l.product_id == pid then
        { l with quantity := l.quantity + q } else l).cart_id = l.cart_id)
    ∧ ((if l.cart_id == cid && l.product_id == pid then
        { l with quantity := l.quantity + q } else l).product_id = l.product_id) := by
  split <;> exact ⟨rfl, rfl⟩

theorem status_upd_id (cid : Nat) (c : Cart) :
    (if c.id == cid then { c with status := CartStatus.checked_out } else c).id = c.id := by
  split <;> rfl

/-! ## Shapes and invariant preservation of the three mutating calls -/

theorem selectOrCreate_wf (s : State) (hwf : WF s) : WF (selectOrCreateCart s).2 := by
  cases hfa : findActiveCart s with
  | some c =>
    rw [selectOrCreateCart_active s c hfa]
    exact hwf
  | none =>
    rw [selectOrCreateCart_fresh s hfa]
    show WF { s with
      carts := s.carts ++ [⟨s.nextCartId, 1, CartStatus.active⟩],
      nextCartId := s.nextCartId + 1 }
    obtain ⟨h1, h2, h3, h4⟩ := hwf
    refine ⟨h1, h2, ?_, ?_⟩
    · intro l hl
      obtain ⟨c, hc, hcid⟩ := h3 l hl
      exact ⟨c, List.mem_append_left _ hc, hcid⟩
    · intro c hc
      show c.id < s.nextCartId + 1
      rcases List.mem_append.mp hc with hmem | hmem
      · have := h4 c hmem
        omega
      · rcases List.mem_singleton.mp hmem with rfl
        show s.nextCartId < s.nextCartId + 1
        omega

theorem selectOrCreate_products (s : State) :
    (selectOrCreateCart s).2.products = s.products := by
  unfold selectOrCreateCart
  cases findActiveCart s <;> rfl

theorem selectOrCreate_orders (s : State) :
    (selectOrCreateCart s).2.orders = s.orders := by
  unfold selectOrCreateCart
  cases findActiveCart s <;> rfl

theorem selectOrCreate_order_items (s : State) :
    (selectOrCreateCart s).2.order_items = s.order_items := by
  unfold selectOrCreateCart
  cases findActiveCart s <;> rfl

theorem selectOrCreate_cart_mem (s : State) :
    ∃ c ∈ (selectOrCreateCart s).2.carts, c.id = (selectOrCreateCart s).1 := by
  unfold selectOrCreateCart
  cases hfa : findActiveCart s with
  | some c => exact ⟨c, List.mem_of_find?_eq_some hfa, rfl⟩
  | none =>
    exact ⟨⟨s.nextCartId, 1, .active⟩,
      List.mem_append_right _ (List.mem_singleton.mpr rfl), rfl⟩

/-- `cart.add_item`'s transaction never fails with the product in range:
it fails with `productNotFound` exactly when the product row is missing. -/
theorem cartAddItem_notFound_eq (s : State) (pid : Nat) (q : Int) (cid0 : Nat) (s1 : State)
    (hsel : selectOrCreateCart s = (cid0, s1)) (hp : findProduct s1 pid = none) :
    cartAddItem s pid q = .error .productNotFound := by
  unfold cartAddItem
  rw [hsel]
  dsimp only
  rw [show findProduct s1 pid = none from hp]

/-- What a successful `cart.add_item` leaves alone, and that it keeps the
database invariants. -/
theorem cartAddItem_ok_shape (s : State) (pid : Nat) (q : Int) (cid : Nat) (s' : State)
    (h : cartAddItem s pid q = .ok (cid, s')) :
    s'.products = s.products ∧ s'.orders = s.orders
    ∧ s'.order_items = s.order_items ∧ (WF s → WF s') := by
  rcases hsel : selectOrCreateCart s with ⟨cid0, s1⟩
  have hs1 : s1 = (selectOrCreateCart s).2 := by rw [hsel]
  have hs1p : s1.products = s.products := by rw [hs1, selectOrCreate_products]
  have hs1o : s1.orders = s.orders := by rw [hs1, selectOrCreate_orders]
  have hs1oi : s1.order_items = s.order_items := by rw [hs1, selectOrCreate_order_items]
  have hs1wf : WF s → WF s1 := fun hwf => by
    rw [hs1]
    exact selectOrCreate_wf s hwf
  cases hp : findProduct s1 pid with
  | none =>
    rw [cartAddItem_notFound_eq s pid q cid0 s1 hsel hp] at h
    cases h
  | some prod =>
    rw [cartAddItem_eq s pid q cid0 s1 hsel prod hp] at h
    cases hfl : findCartLine s1 cid0 pid with
    | some l =>
      simp only [hfl] at h
      by_cases hg : l.quantity + q > prod.stock
      · rw [if_pos hg] at h
        cases h
      · rw [if_neg hg] at h
        simp only [Except.ok.injEq, Prod.mk.injEq] at h
        obtain ⟨-, hs'⟩ := h
        subst hs'
        refine ⟨hs1p, hs1o, hs1oi, fun hwf => ?_⟩
        obtain ⟨w1, w2, w3, w4⟩ := hs1wf hwf
        refine ⟨by rw [hs1p] at w1 ⊢; exact w1, ?_, ?_, w4⟩
        · show (s1.cart_items.map _).Pairwise _
          rw [List.pairwise_map]
          exact w2.imp fun hab => by
            rwa [(upd_cart_id cid0 pid q _).1, (upd_cart_id cid0 pid q _).1,
              (upd_cart_id cid0 pid q _).2, (upd_cart_id cid0 pid q _).2]
        · intro l' hl'
          obtain ⟨l0, hl0, rfl⟩ := List.mem_map.mp hl'
          rw [(upd_cart_id cid0 pid q _).1]
          exact w3 l0 hl0
    | none =>
      simp only [hfl] at h
      by_cases hg : 0 + q > prod.stock
      · rw [if_pos hg] at h
        cases h
      · rw [if_neg hg] at h
        simp only [Except.ok.injEq, Prod.mk.injEq] at h
        obtain ⟨hcid, hs'⟩ := h
        subst hs'
        refine ⟨hs1p, hs1o, hs1oi, fun hwf => ?_⟩
        obtain ⟨w1, w2, w3, w4⟩ := hs1wf hwf
        refine ⟨by rw [hs1p] at w1 ⊢; exact w1, ?_, ?_, w4⟩
        · show (s1.cart_items ++ _).Pairwise _
          rw [List.pairwise_append]
          refine ⟨w2, List.pairwise_singleton _ _, ?_⟩
          intro a ha b hb
          rcases List.mem_singleton.mp hb with rfl
          have := List.find?_eq_none.mp hfl a ha
          simp only [Bool.and_eq_true, beq_iff_eq, not_and] at this
          by_cases hac : a.cart_id = cid0
          · exact Or.inr fun hap => this hac hap
          · exact Or.inl hac
        · intro l' hl'
          rcases List.mem_append.mp hl' with hmem | hmem
          · exact w3 l' hmem
          · rcases List.mem_singleton.mp hmem with rfl
            obtain ⟨c, hc, hcid'⟩ := selectOrCreate_cart_mem s
            rw [hsel] at hcid' hc
            exact ⟨c, by rw [hs1]; rw [hsel]; exact hc, hcid'⟩

/-! ## Inversion of the success paths -/

theorem checkStock_ok_inv (s : State) (items : List CartLine)
    (h : checkStock s items = .ok ()) :
    ∀ it ∈ items, it.quantity ≤ stockOf s it.product_id := by
  induction items with
  | nil => intro it hmem; cases hmem
  | cons hd rest ih =>
    unfold checkStock at h
    by_cases hg : stockOf s hd.product_id < hd.quantity
    · rw [if_pos hg] at h; cases h
    · rw [if_neg hg] at h
      intro it hmem
      rcases List.mem_cons.mp hmem with rfl | hmem'
      · omega
      · exact ih h it hmem'

theorem cartCheckout_eq_of_checkStock_err (s : State) (c : Cart)
    (hc : findActiveCart s = some c) (hne : cartLines s c.id ≠ []) (e : Err)
    (hcs : checkStock s (cartLines s c.id) = .error e) :
    cartCheckout s = .error e := by
  unfold cartCheckout
  rw [hc]
  simp only [List.isEmpty_eq_false.mpr hne, Bool.false_eq_true, if_false, hcs]

theorem cartCheckout_ok_inv (s : State) (oid : Nat) (s' : State)
    (h : cartCheckout s = .ok (oid, s')) :
    ∃ c, findActiveCart s = some c ∧ cartLines s c.id ≠ []
      ∧ checkStock s (cartLines s c.id) = .ok ()
      ∧ oid = s.nextOrderId
      ∧ s' = markCheckedOut
          (commitItems
            { s with
              orders := s.orders ++ [⟨s.nextOrderId, 1⟩],
              nextOrderId := s.nextOrderId + 1 }
            s.nextOrderId (cartLines s c.id)) c.id := by
  cases hfa : findActiveCart s with
  | none => rw [cartCheckout_noActiveCart s hfa] at h; cases h
  | some c =>
    by_cases hne : cartLines s c.id = []
    · rw [cartCheckout_emptyCart s c hfa hne] at h; cases h
    · cases hcs : checkStock s (cartLines s c.id) with
      | error e =>
        rw [cartCheckout_eq_of_checkStock_err s c hfa hne e hcs] at h
        cases h
      | ok u =>
        cases u
        rw [cartCheckout_success s c hfa hne hcs] at h
        simp only [Except.ok.injEq, Prod.mk.injEq] at h
        exact ⟨c, rfl, hne, hcs, h.1.symm, h.2.symm⟩

theorem markCheckedOut_carts (s : State) (cid : Nat) :
    (markCheckedOut s cid).carts
      = s.carts.map fun c =>
          if c.id == cid then { c with status := CartStatus.checked_out } else c := rfl

theorem markCheckedOut_nextCartId (s : State) (cid : Nat) :
    (markCheckedOut s cid).nextCartId = s.nextCartId := rfl

theorem cartCheckout_ok_shape (s : State) (oid : Nat) (s' : State)
    (h : cartCheckout s = .ok (oid, s')) :
    s'.cart_items = s.cart_items ∧ s'.nextCartId = s.nextCartId
    ∧ (WF s → WF s')
    ∧ (WF s → stocksNonneg s → stocksNonneg s') := by
  obtain ⟨c, hfa, hne, hcs, hoid, hs'⟩ := cartCheckout_ok_inv s oid s' h
  subst hs'
  have hci : (markCheckedOut
      (commitItems
        { s with
          orders := s.orders ++ [⟨s.nextOrderId, 1⟩],
          nextOrderId := s.nextOrderId + 1 }
        s.nextOrderId (cartLines s c.id)) c.id).cart_items = s.cart_items := by
    rw [markCheckedOut_cart_items, commitItems_cart_items]
  have hwfp : WF s → WF (markCheckedOut
      (commitItems
        { s with
          orders := s.orders ++ [⟨s.nextOrderId, 1⟩],
          nextOrderId := s.nextOrderId + 1 }
        s.nextOrderId (cartLines s c.id)) c.id) := by
    intro hwf
    obtain ⟨w1, w2, w3, w4⟩ := hwf
    refine ⟨?_, ?_, ?_, ?_⟩
    · rw [markCheckedOut_products]
      exact products_pairwise_commitItems _ _ _ w1
    · rw [hci]; exact w2
    · intro l hl
      rw [hci] at hl
      obtain ⟨c0, hc0, hcid0⟩ := w3 l hl
      rw [markCheckedOut_carts, commitItems_carts]
      refine ⟨if c0.id == c.id then { c0 with status := CartStatus.checked_out } else c0,
        List.mem_map_of_mem _ hc0, ?_⟩
      rw [status_upd_id]
      exact hcid0
    · intro c0 hc0
      rw [markCheckedOut_carts, commitItems_carts] at hc0
      obtain ⟨c1, hc1, rfl⟩ := List.mem_map.mp hc0
      rw [markCheckedOut_nextCartId, commitItems_nextCartId, status_upd_id]
      exact w4 c1 hc1
  refine ⟨hci, by rw [markCheckedOut_nextCartId, commitItems_nextCartId], hwfp, ?_⟩
  intro hwf hnn
  refine stocksNonneg_of_stockOf _ (hwfp hwf).1 ?_
  intro pid
  rw [stockOf_markCheckedOut]
  exact stockOf_commitItems_nonneg
    { s with
      orders := s.orders ++ [⟨s.nextOrderId, 1⟩],
      nextOrderId := s.nextOrderId + 1 }
    s.nextOrderId (cartLines s c.id)
    (cartLines_pairwise s c.id hwf.2.1)
    (checkStock_ok_inv s _ hcs)
    (stockOf_nonneg s hnn) pid

theorem createOrder_ok_inv (s : State) (pid : Nat) (q : Int) (oid : Nat) (s' : State)
    (h : createOrder s pid q = .ok (oid, s')) :
    ∃ prod, findProduct s pid = some prod ∧ ¬ prod.stock < q ∧ oid = s.nextOrderId
      ∧ s' = decrementStock
          { s with
            orders := s.orders ++ [⟨s.nextOrderId, 1⟩],
            order_items := s.order_items ++ [⟨s.nextOrderId, pid, q, prod.price_cents⟩],
            nextOrderId := s.nextOrderId + 1 } pid q := by
  unfold createOrder at h
  cases hp : findProduct s pid with
  | none =>
    simp only [hp] at h
    cases h
  | some prod =>
    simp only [hp] at h
    by_cases hg : prod.stock < q
    · rw [if_pos hg] at h; cases h
    · rw [if_neg hg] at h
      simp only [Except.ok.injEq, Prod.mk.injEq] at h
      exact ⟨prod, rfl, hg, h.1.symm, h.2.symm⟩

theorem createOrder_ok_shape (s : State) (pid : Nat) (q : Int) (oid : Nat) (s' : State)
    (h : createOrder s pid q = .ok (oid, s')) :
    s'.carts = s.carts ∧ s'.cart_items = s.cart_items ∧ s'.nextCartId = s.nextCartId
    ∧ (WF s → WF s')
    ∧ (WF s → stocksNonneg s → stocksNonneg s') := by
  obtain ⟨prod, hp, hg, hoid, hs'⟩ := createOrder_ok_inv s pid q oid s' h
  subst hs'
  refine ⟨rfl, rfl, rfl, ?_, ?_⟩
  · intro hwf
    obtain ⟨w1, w2, w3, w4⟩ := hwf
    exact ⟨products_pairwise_decrementStock _ _ _ w1, w2, w3, w4⟩
  · intro hwf hnn
    refine stocksNonneg_of_stockOf _ (products_pairwise_decrementStock _ _ _ hwf.1) ?_
    intro pid'
    by_cases hpe : pid' = pid
    · rw [hpe]
      refine stockOf_decrementStock_self_nonneg _ _ _ ?_
      show q ≤ stockOf s pid
      have hst : stockOf s pid = prod.stock := by simp [stockOf, hp]
      omega
    · rw [stockOf_decrementStock_ne _ _ _ _ hpe]
      exact stockOf_nonneg s hnn pid'

/-! ## The per-call invariant step and call sequences -/

theorem op_preserves (op : Op) (s : State) (hwf : WF s) (hnn : stocksNonneg s) :
    WF (op.apply s) ∧ stocksNonneg (op.apply s) := by
  cases op with
  | addItem pid q =>
    show WF (runOp (cartAddItem s pid q) s) ∧ stocksNonneg (runOp (cartAddItem s pid q) s)
    cases hr : cartAddItem s pid q with
    | error e => exact ⟨hwf, hnn⟩
    | ok v =>
      obtain ⟨cid, s'⟩ := v
      obtain ⟨hpr, -, -, hwf'⟩ := cartAddItem_ok_shape s pid q cid s' hr
      exact ⟨hwf' hwf, fun p hp => hnn p (hpr ▸ hp)⟩
  | checkout =>
    show WF (runOp (cartCheckout s) s) ∧ stocksNonneg (runOp (cartCheckout s) s)
    cases hr : cartCheckout s with
    | error e => exact ⟨hwf, hnn⟩
    | ok v =>
      obtain ⟨oid, s'⟩ := v
      obtain ⟨-, -, hwf', hnn'⟩ := cartCheckout_ok_shape s oid s' hr
      exact ⟨hwf' hwf, hnn' hwf hnn⟩
  | directPurchase pid q =>
    show WF (runOp (createOrder s pid q) s) ∧ stocksNonneg (runOp (createOrder s pid q) s)
    cases hr : createOrder s pid q with
    | error e => exact ⟨hwf, hnn⟩
    | ok v =>
      obtain ⟨oid, s'⟩ := v
      obtain ⟨-, -, -, hwf', hnn'⟩ := createOrder_ok_shape s pid q oid s' hr
      exact ⟨hwf' hwf, hnn' hwf hnn⟩

theorem applyOps_preserves (s : State) (hwf : WF s) (hnn : stocksNonneg s)
    (ops : List Op) : WF (applyOps s ops) ∧ stocksNonneg (applyOps s ops) := by
  induction ops generalizing s with
  | nil => exact ⟨hwf, hnn⟩
  | cons op rest ih =>
    rw [applyOps]
    obtain ⟨hwf', hnn'⟩ := op_preserves op s hwf hnn
    exact ih _ hwf' hnn'

/-! ## The claims -/

/-- C1: whenever the active cart has a line whose quantity exceeds its
product's current stock, `cart.checkout` fails with the insufficient-stock
error and the rolled-back transaction leaves the state exactly as before:
no stock change, no order or order line, and the cart still active with its
lines intact (`runOp` returns the pre-call state unchanged). -/
theorem checkout_insufficient_rolls_back (s : State) (c : Cart)
    (hc : findActiveCart s = some c) (l : CartLine) (hl : l ∈ cartLines s c.id)
    (p : Product) (hp : findProduct s l.product_id = some p)
    (hgt : p.stock < l.quantity) :
    cartCheckout s = .error .outOfStock ∧ runOp (cartCheckout s) s = s := by
  have herr := cartCheckout_outOfStock s c hc l hl (by simpa [stockOf, hp] using hgt)
  exact ⟨herr, by rw [herr]; rfl⟩

/-- C1 witness: `demoOverState`'s cart wants 2 of product 1 against
stock 1; checkout errors and commits nothing. -/
theorem checkout_insufficient_rolls_back_witness :
    (findActiveCart demoOverState = some ⟨10, 1, .active⟩
      ∧ (⟨10, 1, 2, 100⟩ : CartLine) ∈ cartLines demoOverState (10 : Nat)
      ∧ findProduct demoOverState 1 = some ⟨1, 100, 1⟩
      ∧ (⟨1, 100, 1⟩ : Product).stock < (⟨10, 1, 2, 100⟩ : CartLine).quantity)
    ∧ (cartCheckout demoOverState = .error .outOfStock
      ∧ runOp (cartCheckout demoOverState) demoOverState = demoOverState) :=
  ⟨by decide,
    checkout_insufficient_rolls_back demoOverState ⟨10, 1, .active⟩ (by decide)
      ⟨10, 1, 2, 100⟩ (by decide) ⟨1, 100, 1⟩ (by decide) (by decide)⟩

/-- C2: starting from any database-well-formed state with non-negative
stock, every sequence of `cart.add_item`, `cart.checkout` and
`create.order` (directPurchase) calls — each committed on success and
rolled back on error — keeps every product's stock non-negative. -/
theorem stock_floor (s : State) (hwf : WF s) (hnn : stocksNonneg s)
    (ops : List Op) : stocksNonneg (applyOps s ops) :=
  (applyOps_preserves s hwf hnn ops).2

/-- C2 witness: a mixed call sequence over the demo catalog, with both
succeeding and failing calls, ends with non-negative stock. -/
theorem stock_floor_witness :
    (WF demoState ∧ stocksNonneg demoState)
    ∧ stocksNonneg (applyOps demoState
        [.addItem 1 2, .checkout, .directPurchase 2 1, .addItem 2 5, .checkout]) :=
  ⟨by decide, stock_floor demoState (by decide) (by decide) _⟩

/-- C8: `create.order` (directPurchase) fails with the out-of-stock error
when the quantity exceeds the product's stock, leaving everything
untouched; on success it creates an order with exactly one line for the
product at its current price, decrements only that product's stock by the
quantity, and in both cases every cart and cart-line row is left exactly
as it was. -/
theorem directPurchase_spec (s : State) (pid : Nat) (q : Int) (prod : Product)
    (hp : findProduct s pid = some prod) :
    (prod.stock < q →
      createOrder s pid q = .error .outOfStock
      ∧ runOp (createOrder s pid q) s = s)
    ∧ (¬ prod.stock < q →
      ∃ s', createOrder s pid q = .ok (s.nextOrderId, s')
        ∧ s'.orders = s.orders ++ [⟨s.nextOrderId, 1⟩]
        ∧ s'.order_items = s.order_items ++ [⟨s.nextOrderId, pid, q, prod.price_cents⟩]
        ∧ stockOf s' pid = prod.stock - q
        ∧ (∀ pid', pid' ≠ pid → stockOf s' pid' = stockOf s pid')
        ∧ s'.carts = s.carts ∧ s'.cart_items = s.cart_items) := by
  constructor
  · intro hlt
    have herr : createOrder s pid q = .error .outOfStock := by
      unfold createOrder
      simp only [hp]
      rw [if_pos hlt]
    exact ⟨herr, by rw [herr]; rfl⟩
  · intro hge
    have hok : createOrder s pid q = .ok (s.nextOrderId,
        decrementStock
          { s with
            orders := s.orders ++ [⟨s.nextOrderId, 1⟩],
            order_items := s.order_items ++ [⟨s.nextOrderId, pid, q, prod.price_cents⟩],
            nextOrderId := s.nextOrderId + 1 } pid q) := by
      unfold createOrder
      simp only [hp]
      rw [if_neg hge]
    refine ⟨_, hok, rfl, rfl, ?_, ?_, rfl, rfl⟩
    · exact stockOf_decrementStock_self _ _ _ prod hp
    · intro pid' hne
      exact stockOf_decrementStock_ne _ _ _ _ hne

/-- C8 witness: buying 1 of product 2 (stock 1) from `demoState` succeeds,
snapshots price 500, zeroes that stock and touches no cart rows. -/
theorem directPurchase_spec_witness :
    (findProduct demoState 2 = some ⟨2, 500, 1⟩ ∧ ¬ (⟨2, 500, 1⟩ : Product).stock < (1 : Int))
    ∧ ∃ s', createOrder demoState 2 1 = .ok (demoState.nextOrderId, s')
        ∧ s'.orders = demoState.orders ++ [⟨demoState.nextOrderId, 1⟩]
        ∧ s'.order_items = demoState.order_items
            ++ [⟨demoState.nextOrderId, 2, 1, (⟨2, 500, 1⟩ : Product).price_cents⟩]
        ∧ stockOf s' 2 = (⟨2, 500, 1⟩ : Product).stock - 1
        ∧ (∀ pid', pid' ≠ 2 → stockOf s' pid' = stockOf demoState pid')
        ∧ s'.carts = demoState.carts ∧ s'.cart_items = demoState.cart_items :=
  ⟨by decide,
    (directPurchase_spec demoState 2 1 ⟨2, 500, 1⟩ (by decide)).2 (by decide)⟩

/-- C9: `cart.view` is total (it returns a payload, never an error, and
takes no state — the type `State → ViewResult` is the no-modification
guarantee): with no active cart it returns the empty payload with total 0;
with an active cart it returns the cart id, one item per line whose product
row exists with `line_total = quantity * price_cents` computed from the
line's snapshot price, and `total_cents` equal to the sum of the line
totals. -/
theorem viewCart_spec (s : State) :
    (findActiveCart s = none → cartView s = ⟨none, [], 0⟩)
    ∧ (∀ c, findActiveCart s = some c →
        (cartView s).cartId = some c.id
        ∧ (∀ item ∈ (cartView s).items,
            item.line_total = item.quantity * item.price_cents)
        ∧ (cartView s).total_cents = ((cartView s).items.map (·.line_total)).sum
        ∧ (∀ l ∈ cartLines s c.id, ∀ p, findProduct s l.product_id = some p →
            (⟨l.product_id, l.quantity, l.price_cents, l.quantity * l.price_cents⟩ : ViewItem)
              ∈ (cartView s).items)) := by
  constructor
  · intro hfa
    unfold cartView
    rw [hfa]
  · intro c hfa
    have hview : cartView s =
        ⟨some c.id,
          (s.cart_items.filter fun l => l.cart_id == c.id).filterMap fun l =>
            match findProduct s l.product_id with
            | some _ => some (⟨l.product_id, l.quantity, l.price_cents,
                l.quantity * l.price_cents⟩ : ViewItem)
            | none => none,
          ((s.cart_items.filter fun l => l.cart_id == c.id).filterMap fun l =>
            match findProduct s l.product_id with
            | some _ => some (⟨l.product_id, l.quantity, l.price_cents,
                l.quantity * l.price_cents⟩ : ViewItem)
            | none => none).foldl (fun acc r => acc + r.line_total) 0⟩ := by
      unfold cartView
      rw [hfa]
    rw [hview]
    dsimp only
    refine ⟨rfl, ?_, ?_, ?_⟩
    · intro item hitem
      obtain ⟨l, hl, hfeq⟩ := List.mem_filterMap.mp hitem
      cases hpf : findProduct s l.product_id with
      | none => rw [hpf] at hfeq; cases hfeq
      | some p =>
        rw [hpf] at hfeq
        cases hfeq
        rfl
    · rw [foldl_add_eq_sum]
      exact zero_add _
    · intro l hl p hp
      refine List.mem_filterMap.mpr ⟨l, hl, ?_⟩
      rw [hp]

/-- C9 witness: viewing `demoCartState` yields the cart id, the two lines
with their computed totals, and the summed total. -/
theorem viewCart_spec_witness :
    findActiveCart demoCartState = some ⟨10, 1, .active⟩
    ∧ (cartView demoCartState).cartId = some (10 : Nat)
    ∧ (∀ item ∈ (cartView demoCartState).items,
        item.line_total = item.quantity * item.price_cents)
    ∧ (cartView demoCartState).total_cents
        = ((cartView demoCartState).items.map (·.line_total)).sum
    ∧ ((⟨1, 2, 100, 200⟩ : ViewItem) ∈ (cartView demoCartState).items) := by
  have h := (viewCart_spec demoCartState).2 ⟨10, 1, .active⟩ (by decide)
  refine ⟨by decide, h.1, h.2.1, h.2.2.1, ?_⟩
  have := h.2.2.2 ⟨10, 1, 2, 100⟩ (by decide) ⟨1, 100, 5⟩ (by decide)
  simpa using this

/-- The absent-line branch of `cart.remove_item`: with an active cart but
no line for the product, the delete removes nothing and the call reports
`removed = false` with the state unchanged. -/
theorem cartRemoveItem_absent (s : State) (pid : Nat) (c : Cart)
    (hfa : findActiveCart s = some c)
    (hnone : findCartLine s c.id pid = none) :
    cartRemoveItem s pid = (false, s) := by
  have hnone' : List.find? (fun l => l.cart_id == c.id && l.product_id == pid)
      s.cart_items = none := hnone
  have hz : (s.cart_items.countP fun l => l.cart_id == c.id && l.product_id == pid) = 0 :=
    List.countP_eq_zero.mpr (List.find?_eq_none.mp hnone')
  have hkeep : (s.cart_items.filter fun l =>
      ¬(l.cart_id == c.id && l.product_id == pid)) = s.cart_items := by
    refine List.filter_eq_self.mpr ?_
    intro a ha
    have hx := List.find?_eq_none.mp hnone' a ha
    simp only [Bool.and_eq_true, beq_iff_eq, not_and] at hx
    simp only [decide_eq_true_eq, Bool.and_eq_true, beq_iff_eq, not_and]
    exact hx
  unfold cartRemoveItem
  rw [hfa]
  show (decide (0 < s.cart_items.countP fun l => l.cart_id == c.id && l.product_id == pid),
    ({ s with cart_items := s.cart_items.filter fun l =>
        ¬(l.cart_id == c.id && l.product_id == pid) } : State)) = (false, s)
  rw [hz, hkeep]
  rfl

/-- C10: `cart.remove_item` deletes the whole line for the product from the
active cart when present (never a piecewise quantity decrement: no line for the
product survives) and reports `removed = true`, touching no product, cart
or order row; when the line is absent or there is no active cart it reports
`removed = false` and changes nothing (in particular it creates no cart and
never touches stock), so a second identical call reports `false`. -/
theorem removeItem_spec (s : State) (pid : Nat) :
    (findActiveCart s = none → cartRemoveItem s pid = (false, s))
    ∧ (∀ c, findActiveCart s = some c →
        (findCartLine s c.id pid = none → cartRemoveItem s pid = (false, s))
        ∧ (∀ l0, findCartLine s c.id pid = some l0 →
            (cartRemoveItem s pid).1 = true
            ∧ (cartRemoveItem s pid).2.products = s.products
            ∧ (cartRemoveItem s pid).2.carts = s.carts
            ∧ (cartRemoveItem s pid).2.orders = s.orders
            ∧ (cartRemoveItem s pid).2.order_items = s.order_items
            ∧ findCartLine (cartRemoveItem s pid).2 c.id pid = none
            ∧ (∀ l ∈ s.cart_items,
                ¬(l.cart_id = c.id ∧ l.product_id = pid) →
                  l ∈ (cartRemoveItem s pid).2.cart_items)
            ∧ (cartRemoveItem (cartRemoveItem s pid).2 pid).1 = false)) := by
  constructor
  · intro hfa
    unfold cartRemoveItem
    rw [hfa]
  · intro c hfa
    have hrm : cartRemoveItem s pid =
        (decide (0 < s.cart_items.countP fun l => l.cart_id == c.id && l.product_id == pid),
          { s with cart_items := s.cart_items.filter fun l =>
              ¬(l.cart_id == c.id && l.product_id == pid) }) := by
      unfold cartRemoveItem
      rw [hfa]
    constructor
    · intro hnone
      exact cartRemoveItem_absent s pid c hfa hnone
    · intro l0 hsome
      have hsome' : List.find? (fun l => l.cart_id == c.id && l.product_id == pid)
          s.cart_items = some l0 := hsome
      have hpl : (l0.cart_id == c.id && l0.product_id == pid) = true :=
        @List.find?_some _ (fun l => l.cart_id == c.id && l.product_id == pid)
          l0 s.cart_items hsome'
      have hmem : l0 ∈ s.cart_items :=
        @List.mem_of_find?_eq_some _ (fun l => l.cart_id == c.id && l.product_id == pid)
          l0 s.cart_items hsome'
      have hpos : 0 < s.cart_items.countP fun l => l.cart_id == c.id && l.product_id == pid :=
        List.countP_pos.mpr ⟨l0, hmem, hpl⟩
      have hgone : findCartLine (cartRemoveItem s pid).2 c.id pid = none := by
        rw [hrm]
        show List.find? _ (List.filter _ s.cart_items) = none
        rw [List.find?_eq_none]
        intro x hx
        have hx2 := (List.mem_filter.mp hx).2
        simp only [decide_eq_true_eq, Bool.and_eq_true, beq_iff_eq, not_and] at hx2
        simp only [Bool.and_eq_true, beq_iff_eq, not_and]
        exact hx2
      refine ⟨by rw [hrm]; simpa using hpos, by rw [hrm], by rw [hrm], by rw [hrm],
        by rw [hrm], hgone, ?_, ?_⟩
      · intro l hl hne
        rw [hrm]
        refine List.mem_filter.mpr ⟨hl, ?_⟩
        simp only [decide_eq_true_iff, Bool.and_eq_true, beq_iff_eq]
        exact fun hcontra => hne hcontra
      · have hfa2 : findActiveCart (cartRemoveItem s pid).2 = some c := by
          rw [hrm]
          exact hfa
        rw [cartRemoveItem_absent (cartRemoveItem s pid).2 pid c hfa2 hgone]

/-- C10 witness: removing product 2's line (quantity 1) from
`demoCartState` deletes the whole line, reports `true`, touches no product
row, and a repeat call reports `false`. -/
theorem removeItem_spec_witness :
    (findActiveCart demoCartState = some ⟨10, 1, .active⟩
      ∧ findCartLine demoCartState (10 : Nat) 2 = some ⟨10, 2, 1, 500⟩)
    ∧ ((cartRemoveItem demoCartState 2).1 = true
      ∧ (cartRemoveItem demoCartState 2).2.products = demoCartState.products
      ∧ findCartLine (cartRemoveItem demoCartState 2).2 (10 : Nat) 2 = none
      ∧ (cartRemoveItem (cartRemoveItem demoCartState 2).2 2).1 = false) := by
  have h := ((removeItem_spec demoCartState 2).2 ⟨10, 1, .active⟩ (by decide)).2
    ⟨10, 2, 1, 500⟩ (by decide)
  exact ⟨⟨by decide, by decide⟩,
    h.1, h.2.1, h.2.2.2.2.2.1, h.2.2.2.2.2.2.2⟩

/-- C6 (amended): `cart.ensure` returns the existing active cart id when
one exists, changing nothing; otherwise it inserts exactly one new active
cart and returns its id. But the creation path has no conflict fallback:
when an active cart appears in the window between the SELECT and the
INSERT, the unique-index violation propagates as an error instead of
re-reading the now-existing cart. -/
theorem ensureActiveCart_amended (s : State) :
    (∀ c, findActiveCart s = some c → cartEnsure s = .ok (c.id, s))
    ∧ (findActiveCart s = none →
        cartEnsure s = .ok (s.nextCartId,
          { s with
            carts := s.carts ++ [⟨s.nextCartId, 1, .active⟩],
            nextCartId := s.nextCartId + 1 }))
    ∧ (∀ mid, findActiveCart s = none → (findActiveCart (mid s)).isSome = true →
        cartEnsureWith s mid = .error .uniqueViolation) := by
  refine ⟨?_, ?_, ?_⟩
  · intro c hfa
    unfold cartEnsure cartEnsureWith
    simp only [hfa]
  · intro hfa
    unfold cartEnsure cartEnsureWith
    simp only [hfa, id_eq, Option.isSome_none, Bool.false_eq_true, if_false]
  · intro mid hfa hsome
    unfold cartEnsureWith
    simp only [hfa, hsome, if_true]

/-- C6 counterexample: from the cart-less demo state, with a rival active
cart committed in the window between `cart.ensure`'s SELECT and its INSERT,
the call raises the unique-violation error — it does not fall back to
re-reading and returning the now-existing active cart. -/
theorem ensureActiveCart_counterexample :
    findActiveCart demoState = none
    ∧ findActiveCart (rivalCartInsert demoState) = some ⟨7, 1, .active⟩
    ∧ cartEnsureWith demoState rivalCartInsert = .error .uniqueViolation :=
  ⟨rfl, rfl, rfl⟩

/-- C6 witness: uncontended runs — creation from the empty demo state, and
reuse of `demoMidState`'s existing active cart. -/
theorem ensureActiveCart_amended_witness :
    (findActiveCart demoState = none
      ∧ cartEnsure demoState = .ok (demoState.nextCartId,
          { demoState with
            carts := demoState.carts ++ [⟨demoState.nextCartId, 1, .active⟩],
            nextCartId := demoState.nextCartId + 1 }))
    ∧ (findActiveCart demoMidState = some ⟨10, 1, .active⟩
      ∧ cartEnsure demoMidState = .ok ((10 : Nat), demoMidState)) :=
  ⟨⟨by decide, (ensureActiveCart_amended demoState).2.1 (by decide)⟩,
   ⟨by decide, (ensureActiveCart_amended demoMidState).1 ⟨10, 1, .active⟩ (by decide)⟩⟩

/-- C4: for a positive requested quantity and an existing product,
`cart.add_item` fails with the insufficient-stock error — rolling back
every change, including any cart created inside the transaction — exactly
when the existing line quantity in the active cart (0 when the line or the
cart is absent) plus the requested quantity exceeds the product's current
stock; otherwise the call succeeds. -/
theorem addItem_guard (s : State) (hwf : WF s) (pid : Nat) (q : Int) (hq : 0 < q)
    (prod : Product) (hp : findProduct s pid = some prod) :
    (prod.stock < activeLineQty s pid + q →
      cartAddItem s pid q = .error .notEnoughStock
      ∧ runOp (cartAddItem s pid q) s = s)
    ∧ (activeLineQty s pid + q ≤ prod.stock →
      ∃ cid s', cartAddItem s pid q = .ok (cid, s')) := by
  cases hfa : findActiveCart s with
  | some c =>
    have hsel := selectOrCreateCart_active s c hfa
    have heq := cartAddItem_eq s pid q c.id s hsel prod hp
    cases hfl : findCartLine s c.id pid with
    | some l =>
      have halq : activeLineQty s pid = l.quantity := by
        unfold activeLineQty
        simp only [hfa, hfl]
      constructor
      · intro hlt
        have hlt' : l.quantity + q > prod.stock := by rw [halq] at hlt; exact hlt
        have herr : cartAddItem s pid q = .error .notEnoughStock := by
          rw [heq]
          simp only [hfl]
          exact if_pos hlt'
        exact ⟨herr, by rw [herr]; rfl⟩
      · intro hle
        have hle' : ¬ (l.quantity + q > prod.stock) := by
          rw [halq] at hle
          exact not_lt.mpr hle
        refine ⟨c.id, { s with cart_items := s.cart_items.map fun l' =>
            if l'.cart_id == c.id && l'.product_id == pid then
              { l' with quantity := l'.quantity + q } else l' }, ?_⟩
        rw [heq]
        simp only [hfl]
        exact if_neg hle'
    | none =>
      have halq : activeLineQty s pid = 0 := by
        unfold activeLineQty
        simp only [hfa, hfl]
      constructor
      · intro hlt
        have hlt' : 0 + q > prod.stock := by rw [halq] at hlt; exact hlt
        have herr : cartAddItem s pid q = .error .notEnoughStock := by
          rw [heq]
          simp only [hfl]
          exact if_pos hlt'
        exact ⟨herr, by rw [herr]; rfl⟩
      · intro hle
        have hle' : ¬ (0 + q > prod.stock) := by
          rw [halq] at hle
          exact not_lt.mpr hle
        refine ⟨c.id, { s with cart_items :=
            s.cart_items ++ [⟨c.id, pid, q, prod.price_cents⟩] }, ?_⟩
        rw [heq]
        simp only [hfl]
        exact if_neg hle'
  | none =>
    have hsel := selectOrCreateCart_fresh s hfa
    have heq := cartAddItem_eq s pid q s.nextCartId
      { s with
        carts := s.carts ++ [⟨s.nextCartId, 1, CartStatus.active⟩],
        nextCartId := s.nextCartId + 1 } hsel prod hp
    have hfl : findCartLine
        { s with
          carts := s.carts ++ [⟨s.nextCartId, 1, CartStatus.active⟩],
          nextCartId := s.nextCartId + 1 } s.nextCartId pid = none :=
      findCartLine_fresh s hwf pid
    have halq : activeLineQty s pid = 0 := by
      unfold activeLineQty
      simp only [hfa]
    constructor
    · intro hlt
      have hlt' : 0 + q > prod.stock := by rw [halq] at hlt; exact hlt
      have herr : cartAddItem s pid q = .error .notEnoughStock := by
        rw [heq]
        simp only [hfl]
        exact if_pos hlt'
      exact ⟨herr, by rw [herr]; rfl⟩
    · intro hle
      have hle' : ¬ (0 + q > prod.stock) := by
        rw [halq] at hle
        exact not_lt.mpr hle
      refine ⟨s.nextCartId,
        { s with
          carts := s.carts ++ [⟨s.nextCartId, 1, CartStatus.active⟩],
          cart_items := s.cart_items ++ [⟨s.nextCartId, pid, q, prod.price_cents⟩],
          nextCartId := s.nextCartId + 1 }, ?_⟩
      rw [heq]
      simp only [hfl]
      exact if_neg hle'

/-- C4 witness: on `demoCartState`, adding 3 more of product 2 (existing
line quantity 1, stock 3) fails and commits nothing, while adding 2 more
succeeds. -/
theorem addItem_guard_witness :
    (WF demoCartState ∧ (0 : Int) < 3
      ∧ findProduct demoCartState 2 = some ⟨2, 500, 3⟩
      ∧ (⟨2, 500, 3⟩ : Product).stock < activeLineQty demoCartState 2 + 3
      ∧ activeLineQty demoCartState 2 + 2 ≤ (⟨2, 500, 3⟩ : Product).stock)
    ∧ (cartAddItem demoCartState 2 3 = .error .notEnoughStock
      ∧ runOp (cartAddItem demoCartState 2 3) demoCartState = demoCartState)
    ∧ (∃ cid s', cartAddItem demoCartState 2 2 = .ok (cid, s')) :=
  ⟨by decide,
    (addItem_guard demoCartState (by decide) 2 3 (by decide) ⟨2, 500, 3⟩ (by decide)).1
      (by decide),
    (addItem_guard demoCartState (by decide) 2 2 (by decide) ⟨2, 500, 3⟩ (by decide)).2
      (by decide)⟩

theorem markCheckedOut_orders (s : State) (cid : Nat) :
    (markCheckedOut s cid).orders = s.orders := rfl

theorem markCheckedOut_order_items (s : State) (cid : Nat) :
    (markCheckedOut s cid).order_items = s.order_items := rfl

/-- C3: `cart.checkout` fails with `No active cart` when customer 1 has no
active cart and with `Cart is empty` when the active cart has no lines;
otherwise, when every line's quantity is within the product's current
stock, it creates the order (id = the sequence's next value), copies each
cart line into an order line carrying the line's snapshot price — not the
product's current price — decrements each referenced product's stock by
the line quantity while leaving every other product alone, flips the cart
to `checked_out`, and keeps the lines themselves. -/
theorem checkout_functional (s : State) (hwf : WF s) :
    (findActiveCart s = none → cartCheckout s = .error .noActiveCart)
    ∧ (∀ c, findActiveCart s = some c → cartLines s c.id = [] →
        cartCheckout s = .error .cartIsEmpty)
    ∧ (∀ c, findActiveCart s = some c → cartLines s c.id ≠ [] →
        (∀ l ∈ cartLines s c.id, l.quantity ≤ stockOf s l.product_id) →
        ∃ s', cartCheckout s = .ok (s.nextOrderId, s')
          ∧ s'.orders = s.orders ++ [⟨s.nextOrderId, 1⟩]
          ∧ s'.order_items = s.order_items
              ++ (cartLines s c.id).map (fun l =>
                    (⟨s.nextOrderId, l.product_id, l.quantity, l.price_cents⟩ : OrderLine))
          ∧ (∀ l ∈ cartLines s c.id, ∀ p, findProduct s l.product_id = some p →
              stockOf s' l.product_id = p.stock - l.quantity)
          ∧ (∀ pid, (∀ l ∈ cartLines s c.id, l.product_id ≠ pid) →
              stockOf s' pid = stockOf s pid)
          ∧ s'.carts = s.carts.map (fun c' =>
              if c'.id == c.id then { c' with status := CartStatus.checked_out } else c')
          ∧ s'.cart_items = s.cart_items) := by
  refine ⟨fun hfa => cartCheckout_noActiveCart s hfa,
    fun c hfa he => cartCheckout_emptyCart s c hfa he, ?_⟩
  intro c hfa hne hstock
  have hch : checkStock s (cartLines s c.id) = .ok () := checkStock_ok s _ hstock
  refine ⟨_, cartCheckout_success s c hfa hne hch, ?_, ?_, ?_, ?_, ?_, ?_⟩
  · rw [markCheckedOut_orders, commitItems_orders]
  · rw [markCheckedOut_order_items, commitItems_order_items]
  · intro l hl p hp
    rw [stockOf_markCheckedOut]
    exact stockOf_commitItems_mem
      { s with
        orders := s.orders ++ [⟨s.nextOrderId, 1⟩],
        nextOrderId := s.nextOrderId + 1 }
      s.nextOrderId (cartLines s c.id)
      (cartLines_pairwise s c.id hwf.2.1) l hl p hp
  · intro pid hpid
    rw [stockOf_markCheckedOut]
    exact stockOf_commitItems_notMem
      { s with
        orders := s.orders ++ [⟨s.nextOrderId, 1⟩],
        nextOrderId := s.nextOrderId + 1 }
      s.nextOrderId (cartLines s c.id) pid hpid
  · rw [markCheckedOut_carts, commitItems_carts]
  · rw [markCheckedOut_cart_items, commitItems_cart_items]

/-- C3 witness: checking out `demoCartState` (lines: 1 of product 2 at
500, 2 of product 1 at 100) creates order 20 with both snapshot-priced
lines, drops the stocks to 2 and 3, and flips cart 10 to `checked_out`. -/
theorem checkout_functional_witness :
    (WF demoCartState
      ∧ findActiveCart demoCartState = some ⟨10, 1, .active⟩
      ∧ cartLines demoCartState (10 : Nat) ≠ []
      ∧ (∀ l ∈ cartLines demoCartState (10 : Nat),
          l.quantity ≤ stockOf demoCartState l.product_id))
    ∧ ∃ s', cartCheckout demoCartState = .ok (demoCartState.nextOrderId, s')
        ∧ s'.orders = demoCartState.orders ++ [⟨demoCartState.nextOrderId, 1⟩]
        ∧ s'.order_items = demoCartState.order_items
            ++ (cartLines demoCartState (10 : Nat)).map (fun l =>
                  (⟨demoCartState.nextOrderId, l.product_id, l.quantity, l.price_cents⟩ : OrderLine))
        ∧ (∀ l ∈ cartLines demoCartState (10 : Nat), ∀ p,
            findProduct demoCartState l.product_id = some p →
              stockOf s' l.product_id = p.stock - l.quantity)
        ∧ (∀ pid, (∀ l ∈ cartLines demoCartState (10 : Nat), l.product_id ≠ pid) →
            stockOf s' pid = stockOf demoCartState pid)
        ∧ s'.carts = demoCartState.carts.map (fun c' =>
            if c'.id == (10 : Nat) then { c' with status := CartStatus.checked_out } else c')
        ∧ s'.cart_items = demoCartState.cart_items :=
  ⟨⟨by decide, by decide, by decide, by decide⟩,
    (checkout_functional demoCartState (by decide)).2.2 ⟨10, 1, .active⟩
      (by decide) (by decide) (by decide)⟩

/-- C7: with an active cart holding no line yet for a product with at
least 5 in stock, `cart.add_item(p, 2)` followed by
`cart.add_item(p, 3)` — even with a catalog price change in between —
leaves exactly one line for the (cart, product) pair, with quantity 5 and
the unit price snapshotted at the first call. -/
theorem addItem_merge_pins_price (s : State) (c : Cart) (hc : findActiveCart s = some c)
    (pid : Nat) (prod : Product) (hp : findProduct s pid = some prod)
    (hnoline : findCartLine s c.id pid = none) (hstock : 5 ≤ prod.stock)
    (newPrice : Int) :
    ∃ s1 s2, cartAddItem s pid 2 = .ok (c.id, s1)
      ∧ cartAddItem (setPrice s1 pid newPrice) pid 3 = .ok (c.id, s2)
      ∧ (s2.cart_items.filter fun l => l.cart_id == c.id && l.product_id == pid)
          = [⟨c.id, pid, 5, prod.price_cents⟩] := by
  have hsel := selectOrCreateCart_active s c hc
  have heq := cartAddItem_eq s pid 2 c.id s hsel prod hp
  have h1 : cartAddItem s pid 2 = .ok (c.id,
      { s with cart_items := s.cart_items ++ [⟨c.id, pid, 2, prod.price_cents⟩] }) := by
    rw [heq]
    simp only [hnoline]
    refine if_neg ?_
    show ¬ ((0 : Int) + 2 > prod.stock)
    omega
  have hc2 : findActiveCart (setPrice
      { s with cart_items := s.cart_items ++ [⟨c.id, pid, 2, prod.price_cents⟩] }
      pid newPrice) = some c := hc
  have hsel2 := selectOrCreateCart_active _ c hc2
  have hp2 : findProduct (setPrice
      { s with cart_items := s.cart_items ++ [⟨c.id, pid, 2, prod.price_cents⟩] }
      pid newPrice) pid = some { prod with price_cents := newPrice } := by
    rw [findProduct_setPrice]
    rw [show findProduct
        { s with cart_items := s.cart_items ++ [⟨c.id, pid, 2, prod.price_cents⟩] } pid
      = some prod from hp]
    have hid : prod.id = pid := id_eq_of_findProduct hp
    simp [hid]
  have heq2 := cartAddItem_eq
    (setPrice { s with cart_items := s.cart_items ++ [⟨c.id, pid, 2, prod.price_cents⟩] }
      pid newPrice)
    pid 3 c.id
    (setPrice { s with cart_items := s.cart_items ++ [⟨c.id, pid, 2, prod.price_cents⟩] }
      pid newPrice)
    hsel2 { prod with price_cents := newPrice } hp2
  have hfl2 : findCartLine (setPrice
      { s with cart_items := s.cart_items ++ [⟨c.id, pid, 2, prod.price_cents⟩] }
      pid newPrice) c.id pid = some ⟨c.id, pid, 2, prod.price_cents⟩ := by
    show List.find? (fun l => l.cart_id == c.id && l.product_id == pid)
        (s.cart_items ++ [(⟨c.id, pid, 2, prod.price_cents⟩ : CartLine)])
      = some ⟨c.id, pid, 2, prod.price_cents⟩
    rw [find?_append_of_none _ _ _ hnoline]
    exact List.find?_cons_of_pos _ (by simp)
  have h2 : cartAddItem
      (setPrice { s with cart_items := s.cart_items ++ [⟨c.id, pid, 2, prod.price_cents⟩] }
        pid newPrice) pid 3
    = .ok (c.id,
      { setPrice { s with cart_items := s.cart_items ++ [⟨c.id, pid, 2, prod.price_cents⟩] }
          pid newPrice with
        cart_items :=
          (s.cart_items ++ [(⟨c.id, pid, 2, prod.price_cents⟩ : CartLine)]).map fun l' =>
            if l'.cart_id == c.id && l'.product_id == pid then
              { l' with quantity := l'.quantity + 3 } else l' }) := by
    rw [heq2]
    simp only [hfl2]
    refine if_neg ?_
    show ¬ ((2 : Int) + 3 > prod.stock)
    omega
  have hmap : ((s.cart_items ++ [(⟨c.id, pid, 2, prod.price_cents⟩ : CartLine)]).map fun l' =>
        if l'.cart_id == c.id && l'.product_id == pid then
          { l' with quantity := l'.quantity + 3 } else l')
      = s.cart_items ++ [⟨c.id, pid, 5, prod.price_cents⟩] := by
    rw [List.map_append]
    congr 1
    · have hfix : ∀ a ∈ s.cart_items,
          (if a.cart_id == c.id && a.product_id == pid then
            { a with quantity := a.quantity + 3 } else a) = id a := by
        intro a ha
        have hna := List.find?_eq_none.mp hnoline a ha
        show (if a.cart_id == c.id && a.product_id == pid then
          { a with quantity := a.quantity + 3 } else a) = a
        rw [if_neg hna]
      rw [List.map_congr_left hfix, List.map_id]
    · rw [List.map_singleton]
      have h23 : (2 : Int) + 3 = 5 := by norm_num
      rw [show (if (⟨c.id, pid, 2, prod.price_cents⟩ : CartLine).cart_id == c.id
            && (⟨c.id, pid, 2, prod.price_cents⟩ : CartLine).product_id == pid then
          { (⟨c.id, pid, 2, prod.price_cents⟩ : CartLine) with
            quantity := (⟨c.id, pid, 2, prod.price_cents⟩ : CartLine).quantity + 3 }
          else (⟨c.id, pid, 2, prod.price_cents⟩ : CartLine))
        = (⟨c.id, pid, (2 : Int) + 3, prod.price_cents⟩ : CartLine) from by
          rw [if_pos (by simp)]]
      rw [h23]
  refine ⟨_, _, h1, h2, ?_⟩
  show ((s.cart_items ++ [(⟨c.id, pid, 2, prod.price_cents⟩ : CartLine)]).map fun l' =>
      if l'.cart_id == c.id && l'.product_id == pid then
        { l' with quantity := l'.quantity + 3 } else l').filter
      (fun l => l.cart_id == c.id && l.product_id == pid)
    = [⟨c.id, pid, 5, prod.price_cents⟩]
  rw [hmap, List.filter_append]
  rw [show s.cart_items.filter (fun l => l.cart_id == c.id && l.product_id == pid) = []
    from List.filter_eq_nil_iff.mpr (List.find?_eq_none.mp hnoline)]
  rw [List.filter_cons_of_pos (by simp), List.filter_nil]
  rfl

/-- C7 witness: on an empty active cart over product 1 (stock 9, price
100), add 2, change the catalog price to 999, add 3: one line, quantity 5,
price 100. -/
theorem addItem_merge_pins_price_witness :
    (findActiveCart demoEmptyCartState = some ⟨10, 1, .active⟩
      ∧ findProduct demoEmptyCartState 1 = some ⟨1, 100, 9⟩
      ∧ findCartLine demoEmptyCartState (10 : Nat) 1 = none
      ∧ (5 : Int) ≤ (⟨1, 100, 9⟩ : Product).stock)
    ∧ ∃ s1 s2, cartAddItem demoEmptyCartState 1 2 = .ok ((10 : Nat), s1)
        ∧ cartAddItem (setPrice s1 1 999) 1 3 = .ok ((10 : Nat), s2)
        ∧ (s2.cart_items.filter fun l => l.cart_id == (10 : Nat) && l.product_id == 1)
            = [⟨10, 1, 5, (⟨1, 100, 9⟩ : Product).price_cents⟩] :=
  ⟨⟨by decide, by decide, by decide, by decide⟩,
    addItem_merge_pins_price demoEmptyCartState ⟨10, 1, .active⟩ (by decide) 1
      ⟨1, 100, 9⟩ (by decide) (by decide) (by decide) 999⟩

/-- C5 counterexample: from the empty demo state, adding product 2 and
then product 1 (both within stock) stores the cart lines in that order,
and checkout's lock-and-validate loop visits product ids [2, 1] — not
ascending order. The claimed ascending-id lock ordering fails: the line
query (index.js line 503) has no ORDER BY and no sort is applied. -/
theorem checkout_lock_order_counterexample :
    cartAddItem demoState 2 1 = .ok (10, demoMidState)
    ∧ cartAddItem demoMidState 1 1 = .ok (10, demoTwoLineState)
    ∧ checkoutLockOrder demoTwoLineState = [2, 1]
    ∧ ¬ List.Sorted (· ≤ ·) (checkoutLockOrder demoTwoLineState) := by
  refine ⟨rfl, rfl, rfl, ?_⟩
  decide

/-- C5 (amended): checkout's lock-and-validate loop visits the cart's
lines in their stored (insertion) order — a successful `cart.add_item` for
a product with no existing line appends that product id to the visit
sequence, so the lock order is first-add order, not ascending product id. -/
theorem checkout_lock_order_amended (s : State) (hwf : WF s) (pid : Nat) (q : Int)
    (cid : Nat) (s' : State) (h : cartAddItem s pid q = .ok (cid, s'))
    (hnew : findCartLine s (selectOrCreateCart s).1 pid = none) :
    checkoutLockOrder s' = checkoutLockOrder s ++ [pid] := by
  cases hp0 : findProduct s pid with
  | none =>
    rcases hsel0 : selectOrCreateCart s with ⟨cid0, s1⟩
    rw [cartAddItem_notFound_eq s pid q cid0 s1 hsel0
      (by
        rw [show s1 = (selectOrCreateCart s).2 from by rw [hsel0],
          findProduct_selectOrCreate]
        exact hp0)] at h
    cases h
  | some prod =>
    cases hfa : findActiveCart s with
    | some c =>
      have hsel := selectOrCreateCart_active s c hfa
      have hnew' : findCartLine s c.id pid = none := by
        rw [hsel] at hnew
        exact hnew
      have heq := cartAddItem_eq s pid q c.id s hsel prod hp0
      rw [heq] at h
      simp only [hnew'] at h
      by_cases hg : 0 + q > prod.stock
      · rw [if_pos hg] at h
        cases h
      · rw [if_neg hg] at h
        simp only [Except.ok.injEq, Prod.mk.injEq] at h
        obtain ⟨-, hs'⟩ := h
        subst hs'
        have hfa' : findActiveCart
            { s with cart_items := s.cart_items ++ [⟨c.id, pid, q, prod.price_cents⟩] }
          = some c := hfa
        unfold checkoutLockOrder
        rw [hfa', hfa]
        show ((s.cart_items ++ [(⟨c.id, pid, q, prod.price_cents⟩ : CartLine)]).filter
            (fun l => l.cart_id == c.id)).map (·.product_id)
          = (cartLines s c.id).map (·.product_id) ++ [pid]
        rw [List.filter_append, List.filter_cons_of_pos (by simp), List.filter_nil,
          List.map_append]
        rfl
    | none =>
      have hsel := selectOrCreateCart_fresh s hfa
      have hnew' : findCartLine s s.nextCartId pid = none := by
        rw [hsel] at hnew
        exact hnew
      have heq := cartAddItem_eq s pid q s.nextCartId
        { s with
          carts := s.carts ++ [⟨s.nextCartId, 1, CartStatus.active⟩],
          nextCartId := s.nextCartId + 1 } hsel prod hp0
      rw [heq] at h
      simp only [show findCartLine
          { s with
            carts := s.carts ++ [⟨s.nextCartId, 1, CartStatus.active⟩],
            nextCartId := s.nextCartId + 1 } s.nextCartId pid = none from hnew'] at h
      by_cases hg : 0 + q > prod.stock
      · rw [if_pos hg] at h
        cases h
      · rw [if_neg hg] at h
        simp only [Except.ok.injEq, Prod.mk.injEq] at h
        obtain ⟨-, hs'⟩ := h
        subst hs'
        have hfa' := findActiveCart_selectOrCreateCart_fresh s hfa
        rw [hsel] at hfa'
        have hfa'' : findActiveCart
            { s with
              carts := s.carts ++ [⟨s.nextCartId, 1, CartStatus.active⟩],
              cart_items := s.cart_items ++ [⟨s.nextCartId, pid, q, prod.price_cents⟩],
              nextCartId := s.nextCartId + 1 }
          = some ⟨s.nextCartId, 1, CartStatus.active⟩ := hfa'
        unfold checkoutLockOrder
        rw [hfa'', hfa]
        show ((s.cart_items ++ [(⟨s.nextCartId, pid, q, prod.price_cents⟩ : CartLine)]).filter
            (fun l => l.cart_id == s.nextCartId)).map (·.product_id)
          = [] ++ [pid]
        rw [List.filter_append, List.filter_cons_of_pos (by simp), List.filter_nil]
        rw [show s.cart_items.filter (fun l => l.cart_id == s.nextCartId) = [] from
          List.filter_eq_nil_iff.mpr (by
            intro a ha
            obtain ⟨c0, hc0, hcid0⟩ := hwf.2.2.1 a ha
            have := hwf.2.2.2 c0 hc0
            simp only [beq_iff_eq]
            omega)]
        rfl

/-- C5 amended witness: the first add from the empty demo state extends
the (empty) lock order with product 2. -/
theorem checkout_lock_order_amended_witness :
    (WF demoState
      ∧ cartAddItem demoState 2 1 = .ok (10, demoMidState)
      ∧ findCartLine demoState (selectOrCreateCart demoState).1 2 = none)
    ∧ checkoutLockOrder demoMidState = checkoutLockOrder demoState ++ [2] :=
  ⟨⟨by decide, rfl, rfl⟩,
    checkout_lock_order_amended demoState (by decide) 2 1 10 demoMidState rfl rfl⟩

end Engine
